import Mathlib

/-!
Shallow embedding of the Boka repository's core (src/utils.py and
src/database.py): the content classifier, the formatters, the sliding-window
rate limiter, and the Mongo-backed catalog / user registry / settings /
stats operations.  Texts are `List Char`, documents are structures, a Mongo
collection is a `List` of documents, and "now" is an explicit parameter.
-/

namespace Boka

/-! ## Character classes used by the classifier's regular expressions -/

/-- Python `re`'s `\d` restricted to the decimal-digit classes that occur in
this program's inputs: ASCII digits and Bengali digits (U+09E6..U+09EF). -/
def isDig (c : Char) : Bool :=
  decide (48 ≤ c.toNat ∧ c.toNat ≤ 57) || decide (0x09E6 ≤ c.toNat ∧ c.toNat ≤ 0x09EF)

/-- Python `re`'s `\s` on the ASCII range: space and the control characters
TAB, LF, VT, FF, CR. -/
def isWS (c : Char) : Bool :=
  decide (c.toNat = 32) || decide (9 ≤ c.toNat ∧ c.toNat ≤ 13)

/-! ## Regex fragments for the six series patterns of `detect_category`
(src/utils.py lines 38-45).  The patterns are matched against the lowercased
text, so the `[Ss]`/`[Ee]` classes reduce to the literal lowercase letters.
Each matcher checks for a match anchored at the start of the given suffix;
`searchB` then tries every suffix, which is `re.search`. -/

/-- Consume a literal prefix, returning the rest of the text on success. -/
def litP (lit : List Char) (cs : List Char) : Option (List Char) :=
  match lit, cs with
  | [], rest => some rest
  | _ :: _, [] => none
  | l :: ls, c :: rest => if c = l then litP ls rest else none

/-- Consume `\d+` (one or more digits), returning the rest on success. -/
def digits1 (cs : List Char) : Option (List Char) :=
  match cs.span isDig with
  | (ds, rest) => if ds.isEmpty then none else some rest

/-- Consume `\s*`. -/
def wsStar (cs : List Char) : List Char := cs.dropWhile isWS

/-- Anchored match for `[Ss](\d+)[Ee](\d+)` on lowercased text. -/
def patSE (cs : List Char) : Bool :=
  match litP ['s'] cs with
  | none => false
  | some r1 =>
    match digits1 r1 with
    | none => false
    | some r2 =>
      match litP ['e'] r2 with
      | none => false
      | some r3 => (digits1 r3).isSome

/-- Anchored match for `<lit>\s*(\d+)` on lowercased text: the shape of the
`Season N`, `Episode N`, `Ep N`, `পর্ব N` and `সিজন N` patterns. -/
def patLitWsDigits (lit : List Char) (cs : List Char) : Bool :=
  match litP lit cs with
  | none => false
  | some r => (digits1 (wsStar r)).isSome

/-- `re.search`: try the anchored matcher at every suffix of the text. -/
def searchB (p : List Char → Bool) : List Char → Bool
  | [] => p []
  | c :: cs => p (c :: cs) || searchB p cs

/-- Is `pre` a prefix of the second list? -/
def prefixB : List Char → List Char → Bool
  | [], _ => true
  | _ :: _, [] => false
  | a :: as, b :: bs => a == b && prefixB as bs

/-- Python's substring test `needle in hay`: `needle` occurs contiguously in
`hay`. -/
def infixB (needle : List Char) : List Char → Bool
  | [] => prefixB needle []
  | c :: cs => prefixB needle (c :: cs) || infixB needle cs

/-! ## detect_category (src/utils.py lines 24-56) -/

/-- The fixed adult-keyword list of `detect_category`. -/
def adult_keywords : List (List Char) :=
  ["18+", "adult", "xxx", "porn", "sex", "nsfw", "🔞", "onlyfans", "explicit"].map
    String.toList

/-- The six series patterns of `detect_category`, in the documented order. -/
def series_patterns : List (List Char → Bool) :=
  [patSE,
   patLitWsDigits "season".toList,
   patLitWsDigits "episode".toList,
   patLitWsDigits "ep".toList,
   patLitWsDigits "পর্ব".toList,
   patLitWsDigits "সিজন".toList]

/-- `detect_category(text)`: `None` and the empty text resolve to `"movie"`
(`if not text`); otherwise lowercase the text, return `"adult"` if any adult
keyword occurs as a substring, else `"series"` if any of the six series
patterns matches (first match wins; all return the same value), else
`"movie"`.  Lowercasing is modelled characterwise by `Char.toLower`. -/
def detect_category (text : Option (List Char)) : String :=
  match text with
  | none => "movie"
  | some t =>
    if t = [] then "movie"
    else
      let text_lower := t.map Char.toLower
      if adult_keywords.any (fun kw => infixB kw text_lower) then "adult"
      else if series_patterns.any (fun p => searchB p text_lower) then "series"
      else "movie"

/-- C2: `detect_category` returns `"adult"` exactly when some keyword of the
fixed adult set occurs in the lowercased text (overriding any series
pattern), `"series"` exactly when no adult keyword occurs but one of the six
series patterns matches, and `"movie"` for absent text, empty text and
no match; in particular the three documented examples resolve to
`adult`/`series`/`movie`. -/
theorem detect_category_spec :
    (∀ t : List Char,
      ((detect_category (some t) = "adult") ↔
        ∃ kw ∈ adult_keywords, infixB kw (t.map Char.toLower) = true) ∧
      ((detect_category (some t) = "series") ↔
        ((¬ ∃ kw ∈ adult_keywords, infixB kw (t.map Char.toLower) = true) ∧
         ∃ p ∈ series_patterns, searchB p (t.map Char.toLower) = true)) ∧
      ((detect_category (some t) = "movie") ↔
        ((¬ ∃ kw ∈ adult_keywords, infixB kw (t.map Char.toLower) = true) ∧
         ¬ ∃ p ∈ series_patterns, searchB p (t.map Char.toLower) = true))) ∧
    detect_category none = "movie" ∧
    detect_category (some "18+ Movie Night".toList) = "adult" ∧
    detect_category (some "Breaking Bad S01E05".toList) = "series" ∧
    detect_category (some "Random Title".toList) = "movie" := by
  refine ⟨?_, rfl, by decide, by decide, by decide⟩
  intro t
  by_cases ht : t = []
  · subst ht; decide
  · have hd : detect_category (some t) =
        if adult_keywords.any (fun kw => infixB kw (t.map Char.toLower)) then "adult"
        else if series_patterns.any (fun p => searchB p (t.map Char.toLower)) then "series"
        else "movie" := by
      simp [detect_category, ht]
    by_cases ha : adult_keywords.any (fun kw => infixB kw (t.map Char.toLower)) = true
    · rw [hd, if_pos ha]
      refine ⟨iff_of_true rfl (List.any_eq_true.mp ha),
        iff_of_false (by decide) ?_, iff_of_false (by decide) ?_⟩
      · rintro ⟨hna, -⟩; exact hna (List.any_eq_true.mp ha)
      · rintro ⟨hna, -⟩; exact hna (List.any_eq_true.mp ha)
    · rw [hd, if_neg ha]
      have hna : ¬ ∃ kw ∈ adult_keywords, infixB kw (t.map Char.toLower) = true :=
        fun h => ha (List.any_eq_true.mpr h)
      by_cases hs : series_patterns.any (fun p => searchB p (t.map Char.toLower)) = true
      · rw [if_pos hs]
        refine ⟨iff_of_false (by decide) hna,
          iff_of_true rfl ⟨hna, List.any_eq_true.mp hs⟩,
          iff_of_false (by decide) ?_⟩
        rintro ⟨-, hns⟩; exact hns (List.any_eq_true.mp hs)
      · rw [if_neg hs]
        have hnp : ¬ ∃ p ∈ series_patterns, searchB p (t.map Char.toLower) = true :=
          fun h => hs (List.any_eq_true.mpr h)
        exact ⟨iff_of_false (by decide) hna,
          iff_of_false (by decide) (fun h => hnp h.2),
          iff_of_true rfl ⟨hna, hnp⟩⟩

/-- C2 witness: `detect_category_spec` instantiated at the concrete text
`"18+"`, whose adult keyword forces the `"adult"` outcome. -/
theorem detect_category_spec_witness :
    detect_category (some "18+".toList) = "adult" :=
  (detect_category_spec.1 "18+".toList).1.mpr (by decide)

/-! ## escape_markdown (src/utils.py lines 165-177) -/

/-- The fixed 18-character special set of `escape_markdown`, in source
order. -/
def special_chars : List Char :=
  ['_', '*', '[', ']', '(', ')', '~', '\x60', '>', '#', '+', '-', '=', '|',
   '\x7b', '\x7d', '.', '!']

/-- Python `text.replace(char, '\\' + char)` for a one-character pattern:
every occurrence of `old` becomes a backslash followed by `old`. -/
def replaceChar (old : Char) (cs : List Char) : List Char :=
  cs.flatMap (fun c => if c = old then ['\\', c] else [c])

/-- The escaping loop of `escape_markdown`: one `replace` per special
character, in source order. -/
def escF (t : List Char) : List Char :=
  special_chars.foldl (fun acc ch => replaceChar ch acc) t

/-- `escape_markdown(text)`: `None` and the empty text yield `""`
(`if not text`); otherwise run the per-character replacement loop. -/
def escape_markdown (text : Option (List Char)) : List Char :=
  match text with
  | none => []
  | some t => if t = [] then [] else escF t

/-- Modelled from the spec: a single left-to-right pass that puts exactly one
backslash before each occurrence of each special character and copies every
other character unchanged.  Compared against the source's sequential
replacement loop in `escape_markdown_spec`. -/
def escapeOnce (t : List Char) : List Char :=
  t.flatMap (fun c => if c ∈ special_chars then ['\\', c] else [c])

lemma replaceChar_append (ch : Char) (xs ys : List Char) :
    replaceChar ch (xs ++ ys) = replaceChar ch xs ++ replaceChar ch ys := by
  simp [replaceChar]

lemma escF_append (xs ys : List Char) : escF (xs ++ ys) = escF xs ++ escF ys := by
  simp [escF, special_chars, List.foldl, replaceChar_append]

lemma escF_single (c : Char) :
    escF [c] = if c ∈ special_chars then ['\\', c] else [c] := by
  by_cases h : c ∈ special_chars
  · rw [if_pos h]; fin_cases h <;> rfl
  · rw [if_neg h]
    simp only [special_chars, List.mem_cons, List.not_mem_nil, or_false, not_or] at h
    obtain ⟨h1, h2, h3, h4, h5, h6, h7, h8, h9, h10, h11, h12, h13, h14, h15,
      h16, h17, h18⟩ := h
    simp [escF, special_chars, replaceChar, List.foldl, h1, h2, h3, h4, h5,
      h6, h7, h8, h9, h10, h11, h12, h13, h14, h15, h16, h17, h18]

lemma escF_eq_escapeOnce (t : List Char) : escF t = escapeOnce t := by
  induction t with
  | nil => rfl
  | cons c cs ih =>
    have hsplit : c :: cs = [c] ++ cs := rfl
    rw [hsplit, escF_append, escF_single, ih]
    simp [escapeOnce]

/-- C9: the sequential replacement loop of `escape_markdown` inserts exactly
one backslash before each occurrence of each of the 18 special characters
(it equals the single-pass escaping `escapeOnce` on every text), and it is
not idempotent: escaping `"."` twice yields a double-escaped string
different from escaping it once. -/
theorem escape_markdown_spec :
    (∀ t : List Char, escape_markdown (some t) = escapeOnce t) ∧
    escape_markdown (some (escape_markdown (some ['.']))) ≠
      escape_markdown (some ['.']) := by
  constructor
  · intro t
    by_cases ht : t = []
    · subst ht; rfl
    · simpa [escape_markdown, ht] using escF_eq_escapeOnce t
  · decide

/-- C9 witness: `escape_markdown_spec` instantiated at the concrete text
`"a."`. -/
theorem escape_markdown_spec_witness :
    escape_markdown (some ['a', '.']) = escapeOnce ['a', '.'] :=
  escape_markdown_spec.1 ['a', '.']

/-! ## format_file_size and format_duration (src/utils.py lines 97-134).
Sizes and durations are integers in the source (`int(...)` conversion); the
`f"{x:.2f}"` rendering of the float quotient is modelled exactly on the
rationals with round-half-to-even, which agrees with the double-precision
rendering on the magnitudes this program formats. -/

/-- Python `f"{n:02d}"`: zero-pad a one-digit non-negative number to width
two; larger or negative numbers print as-is. -/
def pad2Int (n : Int) : String :=
  if 0 ≤ n ∧ n < 10 then "0" ++ toString n else toString n

/-- Round `num / den` (with `den > 0`) to the nearest integer, ties to
even. -/
def rhe (num den : Int) : Int :=
  let q := num.fdiv den
  let r := num.fmod den
  if 2 * r < den then q
  else if den < 2 * r then q + 1
  else if q.emod 2 = 0 then q else q + 1

/-- Python `f"{num/den:.2f}"` for positive `num`, `den`: two fixed decimal
places of the quotient. -/
def fmt2 (num den : Int) : String :=
  let q := rhe (100 * num) den
  toString (q.fdiv 100) ++ "." ++ pad2Int (q.fmod 100)

/-- `format_file_size(size_bytes)`: `None` and `0` fail the `if not
size_bytes` guard and yield `"Unknown"`; any other integer (negatives
included) is formatted by the four-band chain B / KB / MB / GB. -/
def format_file_size (size_bytes : Option Int) : String :=
  match size_bytes with
  | none => "Unknown"
  | some n =>
    if n = 0 then "Unknown"
    else if n < 1024 then toString n ++ " B"
    else if n < 1024 * 1024 then fmt2 n 1024 ++ " KB"
    else if n < 1024 * 1024 * 1024 then fmt2 n (1024 * 1024) ++ " MB"
    else fmt2 n (1024 * 1024 * 1024) ++ " GB"

/-- `format_duration(seconds)`: `None` and `0` yield `"Unknown"`; any other
integer is split with Python floor division and modulo (`//`, `%`) into
hours, minutes and seconds, rendered `H:M:S` when `hours > 0` and `M:S`
otherwise. -/
def format_duration (seconds : Option Int) : String :=
  match seconds with
  | none => "Unknown"
  | some n =>
    if n = 0 then "Unknown"
    else
      let hours := n.fdiv 3600
      let minutes := (n.fmod 3600).fdiv 60
      let secs := n.fmod 60
      if 0 < hours then
        pad2Int hours ++ ":" ++ pad2Int minutes ++ ":" ++ pad2Int secs
      else pad2Int minutes ++ ":" ++ pad2Int secs

/-- C6 counterexample: negative input does not yield `"Unknown"`: the guard
`if not size_bytes` only catches `None` and `0`, so `-5` bytes is formatted
as `"-5 B"` and `-5` seconds as `"59:55"` (Python floor/modulo). -/
theorem format_negative_counterexample :
    format_file_size (some (-5)) = "-5 B" ∧
    format_file_size (some (-5)) ≠ "Unknown" ∧
    format_duration (some (-5)) = "59:55" ∧
    format_duration (some (-5)) ≠ "Unknown" := by
  refine ⟨rfl, by decide, ?_, ?_⟩ <;> decide

/-- C6 amended: `format_file_size` picks the band matching the input's
magnitude (B below 1024, then KB, MB, GB with 2-decimal fixed point) and
returns `"Unknown"` for `None` or `0` input — but a negative input is not
rejected: it falls into the bytes band (`-5` → `"-5 B"`), and
`format_duration` likewise returns `"Unknown"` only for `None`/`0`,
formatting a negative duration with floor/modulo arithmetic. -/
theorem format_file_size_duration_spec :
    (∀ n : Int,
      (0 < n → n < 1024 → format_file_size (some n) = toString n ++ " B") ∧
      (1024 ≤ n → n < 1024 * 1024 →
        ∃ x, format_file_size (some n) = x ++ " KB") ∧
      (1024 * 1024 ≤ n → n < 1024 * 1024 * 1024 →
        ∃ x, format_file_size (some n) = x ++ " MB") ∧
      (1024 * 1024 * 1024 ≤ n → ∃ x, format_file_size (some n) = x ++ " GB")) ∧
    format_file_size none = "Unknown" ∧
    format_file_size (some 0) = "Unknown" ∧
    format_duration none = "Unknown" ∧
    format_duration (some 0) = "Unknown" ∧
    format_file_size (some 500) = "500 B" ∧
    format_file_size (some 2048) = "2.00 KB" ∧
    format_file_size (some 5242880) = "5.00 MB" ∧
    format_file_size (some (-5)) = "-5 B" ∧
    format_duration (some (-5)) = "59:55" := by
  refine ⟨?_, rfl, rfl, rfl, rfl, by decide, by decide, by decide, rfl, by decide⟩
  intro n
  refine ⟨fun h1 h2 => ?_, fun h1 h2 => ?_, fun h1 h2 => ?_, fun h1 => ?_⟩
  · simp only [format_file_size]
    rw [if_neg (by omega : ¬ n = 0), if_pos h2]
  · simp only [format_file_size]
    rw [if_neg (by omega : ¬ n = 0), if_neg (by omega : ¬ n < 1024), if_pos h2]
    exact ⟨_, rfl⟩
  · simp only [format_file_size]
    rw [if_neg (by omega : ¬ n = 0), if_neg (by omega : ¬ n < 1024),
      if_neg (by omega : ¬ n < 1024 * 1024), if_pos h2]
    exact ⟨_, rfl⟩
  · simp only [format_file_size]
    rw [if_neg (by omega : ¬ n = 0), if_neg (by omega : ¬ n < 1024),
      if_neg (by omega : ¬ n < 1024 * 1024),
      if_neg (by omega : ¬ n < 1024 * 1024 * 1024)]
    exact ⟨_, rfl⟩

/-- C6 witness: the band cases of `format_file_size_duration_spec`
instantiated at 500, 2048, 5242880 and 2147483648 bytes. -/
theorem format_file_size_duration_spec_witness :
    format_file_size (some 500) = toString (500 : Int) ++ " B" ∧
    (∃ x, format_file_size (some 2048) = x ++ " KB") ∧
    (∃ x, format_file_size (some 5242880) = x ++ " MB") ∧
    (∃ x, format_file_size (some 2147483648) = x ++ " GB") :=
  ⟨(format_file_size_duration_spec.1 500).1 (by decide) (by decide),
   (format_file_size_duration_spec.1 2048).2.1 (by decide) (by decide),
   (format_file_size_duration_spec.1 5242880).2.2.1 (by decide) (by decide),
   (format_file_size_duration_spec.1 2147483648).2.2.2 (by decide)⟩

/-! ## RateLimiter (src/utils.py lines 222-251).  The per-user map
`self.requests` is a total function from user id to timestamp list (absent
keys read as `[]`, which is what the `if user_id not in self.requests`
initialisation produces); datetimes are integer seconds. -/

structure RateLimiter where
  max_requests : Nat
  time_window : Int

/-- `is_allowed(user_id)`: prune the user's timestamps to those with
`now - t < time_window`, deny without recording if the pruned count reaches
`max_requests`, otherwise append `now` and allow.  Returns the decision and
the updated per-user map. -/
def RateLimiter.is_allowed (rl : RateLimiter) (st : Nat → List Int)
    (user : Nat) (now : Int) : Bool × (Nat → List Int) :=
  let pruned := (st user).filter (fun t => now - t < rl.time_window)
  if rl.max_requests ≤ pruned.length then
    (false, fun u => if u = user then pruned else st u)
  else
    (true, fun u => if u = user then pruned ++ [now] else st u)

/-- Run a sequence of `(user, now)` calls, collecting the decisions and the
final per-user map. -/
def RateLimiter.runCalls (rl : RateLimiter) (st : Nat → List Int) :
    List (Nat × Int) → List Bool × (Nat → List Int)
  | [] => ([], st)
  | (u, t) :: rest =>
    let step := rl.is_allowed st u t
    let next := rl.runCalls step.2 rest
    (step.1 :: next.1, next.2)

/-- C1: `is_allowed` prunes the user's timestamps to those strictly within
the window, denies without recording when the pruned count is at or above
the max, otherwise records `now` and allows, and never touches another
user's list; with max=3 and window=60s, three calls by one user at 0/10/20
all allow, the fourth at 30 denies, a different user still allows at 30,
and the same user allows again at 70 once the window has elapsed. -/
theorem rate_limiter_is_allowed_spec :
    (∀ (rl : RateLimiter) (st : Nat → List Int) (user : Nat) (now : Int),
      (rl.max_requests ≤
          ((st user).filter (fun t => now - t < rl.time_window)).length →
        (rl.is_allowed st user now).1 = false ∧
        (rl.is_allowed st user now).2 user =
          (st user).filter (fun t => now - t < rl.time_window)) ∧
      (((st user).filter (fun t => now - t < rl.time_window)).length <
          rl.max_requests →
        (rl.is_allowed st user now).1 = true ∧
        (rl.is_allowed st user now).2 user =
          (st user).filter (fun t => now - t < rl.time_window) ++ [now]) ∧
      (∀ u, u ≠ user → (rl.is_allowed st user now).2 u = st u)) ∧
    (RateLimiter.runCalls ⟨3, 60⟩ (fun _ => [])
        [(1, 0), (1, 10), (1, 20), (1, 30), (2, 30), (1, 70)]).1 =
      [true, true, true, false, true, true] := by
  constructor
  · intro rl st user now
    refine ⟨fun h => ?_, fun h => ?_, fun u hu => ?_⟩
    · simp [RateLimiter.is_allowed, h]
    · simp [RateLimiter.is_allowed, Nat.not_le.mpr h]
    · by_cases hc : rl.max_requests ≤
          ((st user).filter (fun t => now - t < rl.time_window)).length
      · simp [RateLimiter.is_allowed, hc, hu]
      · simp [RateLimiter.is_allowed, hc, hu]
  · rfl

/-- C1 witness: the deny and allow cases of `rate_limiter_is_allowed_spec`
at a concrete limiter (max=3, window=60), a full list `[0, 10, 20]` for user
1 at time 30, and an empty list for user 2. -/
theorem rate_limiter_is_allowed_spec_witness :
    ((RateLimiter.is_allowed ⟨3, 60⟩
        (fun u => if u = 1 then [0, 10, 20] else []) 1 30).1 = false ∧
      (RateLimiter.is_allowed ⟨3, 60⟩
        (fun u => if u = 1 then [0, 10, 20] else []) 2 30).1 = true) ∧
    (RateLimiter.is_allowed ⟨3, 60⟩
        (fun u => if u = 1 then [0, 10, 20] else []) 1 30).2 2 = [] :=
  ⟨⟨((rate_limiter_is_allowed_spec.1 ⟨3, 60⟩
        (fun u => if u = 1 then [0, 10, 20] else []) 1 30).1 (by decide)).1,
    ((rate_limiter_is_allowed_spec.1 ⟨3, 60⟩
        (fun u => if u = 1 then [0, 10, 20] else []) 2 30).2.1 (by decide)).1⟩,
   (rate_limiter_is_allowed_spec.1 ⟨3, 60⟩
        (fun u => if u = 1 then [0, 10, 20] else []) 1 30).2.2 2 (by decide)⟩

lemma is_allowed_preserves_bound (rl : RateLimiter) (st : Nat → List Int)
    (user : Nat) (now : Int)
    (h : ∀ u, (st u).length ≤ rl.max_requests) :
    ∀ u, ((rl.is_allowed st user now).2 u).length ≤ rl.max_requests := by
  intro u
  have hfilter : ((st user).filter (fun t => now - t < rl.time_window)).length ≤
      (st user).length := List.length_filter_le _ _
  by_cases hc : rl.max_requests ≤
      ((st user).filter (fun t => now - t < rl.time_window)).length
  · simp only [RateLimiter.is_allowed, if_pos hc]
    by_cases hu : u = user
    · subst hu; simpa using le_trans hfilter (h u)
    · simpa [hu] using h u
  · simp only [RateLimiter.is_allowed, if_neg hc]
    by_cases hu : u = user
    · subst hu
      simp [List.length_append]
      omega
    · simpa [hu] using h u

/-- C10: starting from the empty per-user map, after any sequence of
`is_allowed` calls every user's recorded timestamp list holds at most
`max_requests` entries: a denied call appends nothing and an allowed call
appends one timestamp to a pruned list that was strictly below the max. -/
theorem rate_limiter_bounded_state (rl : RateLimiter)
    (calls : List (Nat × Int)) (u : Nat) :
    ((rl.runCalls (fun _ => []) calls).2 u).length ≤ rl.max_requests := by
  suffices h : ∀ (st : Nat → List Int),
      (∀ v, (st v).length ≤ rl.max_requests) →
      ∀ v, ((rl.runCalls st calls).2 v).length ≤ rl.max_requests by
    exact h (fun _ => []) (fun v => by simp) u
  induction calls with
  | nil => intro st hst v; simpa [RateLimiter.runCalls] using hst v
  | cons c rest ih =>
    intro st hst v
    obtain ⟨cu, ct⟩ := c
    simpa [RateLimiter.runCalls] using
      ih ((rl.is_allowed st cu ct).2)
        (is_allowed_preserves_bound rl st cu ct hst) v

/-! ## Catalog: video operations (src/database.py lines 121-215).  The
`videos` collection is a list of documents; `insert_one` appends,
`update_one` rewrites the first document matching the filter, `find_one`
returns the first match.  The unique index on `video_id` makes a duplicate
insert raise, which `add_video` catches and turns into `None` with the
collection unchanged. -/

structure Video where
  video_id : String
  title : String
  category : String
  views : Nat
  downloads : Nat
  status : String
  added_at : Int
  last_updated : Int
  deleted_at : Option Int
deriving DecidableEq

/-- The caller-supplied part of a new video document, before `add_video`
stamps timestamps, counters and status. -/
structure VideoData where
  video_id : String
  title : String
  category : String
deriving DecidableEq

/-- A partial `$set` document for `update_video`: any subset of the mutable
fields, `status` included (the source passes the caller's dict through
unchecked). -/
structure VideoUpdate where
  title : Option String
  category : Option String
  status : Option String
deriving DecidableEq

/-- Mongo `update_one`: rewrite the first element matching the filter. -/
def updateFirstWith {α : Type} (p : α → Bool) (f : α → α) : List α → List α
  | [] => []
  | x :: xs => if p x then f x :: xs else x :: updateFirstWith p f xs

/-- Apply a `$set` update plus the `last_updated` stamp that `update_video`
adds to every update. -/
def applyUpdate (upd : VideoUpdate) (now : Int) (v : Video) : Video :=
  { v with
    title := upd.title.getD v.title
    category := upd.category.getD v.category
    status := upd.status.getD v.status
    last_updated := now }

/-- `add_video(video_data)`: stamp `added_at`/`last_updated`, initialise
`views = downloads = 0` and `status = 'active'`, insert; a duplicate
`video_id` makes the unique-indexed insert fail, which the source catches
and returns `None` leaving the collection unchanged. -/
def add_video (videos : List Video) (data : VideoData) (now : Int) :
    Option String × List Video :=
  if videos.any (fun v => v.video_id == data.video_id) then (none, videos)
  else (some data.video_id,
    videos ++ [{ video_id := data.video_id, title := data.title,
                 category := data.category, views := 0, downloads := 0,
                 status := "active", added_at := now, last_updated := now,
                 deleted_at := none }])

/-- `get_video(video_id)`: `find_one({'video_id': id, 'status': 'active'})`. -/
def get_video (videos : List Video) (vid : String) : Option Video :=
  videos.find? (fun v => v.video_id == vid && v.status == "active")

/-- `update_video(video_id, updates)`: `$set` the given fields plus
`last_updated` on the first document with this id; the returned flag is
`modified_count > 0` (a matching document actually changed). -/
def update_video (videos : List Video) (vid : String) (upd : VideoUpdate)
    (now : Int) : Bool × List Video :=
  let nv := updateFirstWith (fun v => v.video_id == vid) (applyUpdate upd now) videos
  (decide (nv ≠ videos), nv)

/-- `delete_video(video_id)` (soft delete): `$set {'status': 'deleted',
'deleted_at': now}` on the first document with this id. -/
def delete_video (videos : List Video) (vid : String) (now : Int) :
    Bool × List Video :=
  let nv := updateFirstWith (fun v => v.video_id == vid)
    (fun v => { v with status := "deleted", deleted_at := some now }) videos
  (decide (nv ≠ videos), nv)

/-- A catalog mutation: add, partial-field update, or soft delete. -/
inductive CatalogOp where
  | add (data : VideoData) (now : Int)
  | update (vid : String) (upd : VideoUpdate) (now : Int)
  | softDelete (vid : String) (now : Int)
deriving DecidableEq

def applyOp (videos : List Video) : CatalogOp → List Video
  | .add d t => (add_video videos d t).2
  | .update vid u t => (update_video videos vid u t).2
  | .softDelete vid t => (delete_video videos vid t).2

def applyOps (videos : List Video) (ops : List CatalogOp) : List Video :=
  ops.foldl applyOp videos

/-- The status of the (first) document with the given id, if any. -/
def statusOf (videos : List Video) (vid : String) : Option String :=
  (videos.find? (fun v => v.video_id == vid)).map Video.status

/-- An operation whose `$set` document does not name the `status` field. -/
def statusFree : CatalogOp → Bool
  | .update _ u _ => u.status.isNone
  | _ => true

lemma statusOf_updateFirstWith (w vid : String) (f : Video → Video)
    (hid : ∀ v, (f v).video_id = v.video_id)
    (hst : ∀ v, v.status = "deleted" → (f v).status = "deleted")
    (s : List Video) (h : statusOf s vid = some "deleted") :
    statusOf (updateFirstWith (fun v => v.video_id == w) f s) vid =
      some "deleted" := by
  induction s with
  | nil => exact h
  | cons x xs ih =>
    simp only [updateFirstWith]
    by_cases hx : (x.video_id == w) = true
    · rw [if_pos hx]
      by_cases hv : (x.video_id == vid) = true
      · have hfx : ((f x).video_id == vid) = true := by
          rw [beq_iff_eq] at hv ⊢; rw [hid]; exact hv
        have e1 : List.find? (fun v => v.video_id == vid) (x :: xs) = some x :=
          List.find?_cons_of_pos _ hv
        have e2 : List.find? (fun v => v.video_id == vid) (f x :: xs) =
            some (f x) := List.find?_cons_of_pos _ hfx
        unfold statusOf at h ⊢
        rw [e1] at h
        rw [e2]
        simp at h ⊢
        exact hst x h
      · have hfx : ¬ ((f x).video_id == vid) = true := by
          rw [beq_iff_eq] at hv ⊢; rw [hid]; exact hv
        have e1 : List.find? (fun v => v.video_id == vid) (x :: xs) =
            List.find? (fun v => v.video_id == vid) xs :=
          List.find?_cons_of_neg _ hv
        have e2 : List.find? (fun v => v.video_id == vid) (f x :: xs) =
            List.find? (fun v => v.video_id == vid) xs :=
          List.find?_cons_of_neg _ hfx
        unfold statusOf at h ⊢
        rw [e1] at h
        rw [e2]
        exact h
    · rw [if_neg hx]
      by_cases hv : (x.video_id == vid) = true
      · have e1 : List.find? (fun v => v.video_id == vid) (x :: xs) = some x :=
          List.find?_cons_of_pos _ hv
        have e2 : List.find? (fun v => v.video_id == vid)
            (x :: updateFirstWith (fun v => v.video_id == w) f xs) = some x :=
          List.find?_cons_of_pos _ hv
        unfold statusOf at h ⊢
        rw [e1] at h
        rw [e2]
        exact h
      · have e1 : List.find? (fun v => v.video_id == vid) (x :: xs) =
            List.find? (fun v => v.video_id == vid) xs :=
          List.find?_cons_of_neg _ hv
        have e2 : List.find? (fun v => v.video_id == vid)
            (x :: updateFirstWith (fun v => v.video_id == w) f xs) =
            List.find? (fun v => v.video_id == vid)
              (updateFirstWith (fun v => v.video_id == w) f xs) :=
          List.find?_cons_of_neg _ hv
        unfold statusOf at h ⊢
        rw [e1] at h
        rw [e2]
        exact ih h

lemma statusOf_applyOp_deleted (s : List Video) (op : CatalogOp)
    (vid : String) (hop : statusFree op = true)
    (h : statusOf s vid = some "deleted") :
    statusOf (applyOp s op) vid = some "deleted" := by
  cases op with
  | add d t =>
    simp only [applyOp, add_video]
    by_cases hdup : (s.any (fun v => v.video_id == d.video_id)) = true
    · simpa [hdup] using h
    · simp only [hdup, Bool.false_eq_true, if_false]
      unfold statusOf at h ⊢
      rw [List.find?_append]
      rcases hfind : s.find? (fun v => v.video_id == vid) with _ | v
      · rw [hfind] at h; simp at h
      · rw [hfind] at h ⊢
        simpa using h
  | update w u t =>
    simp only [statusFree, Option.isNone_iff_eq_none] at hop
    show statusOf
      (updateFirstWith (fun v => v.video_id == w) (applyUpdate u t) s) vid =
      some "deleted"
    exact statusOf_updateFirstWith w vid (applyUpdate u t)
      (fun v => rfl)
      (fun v hv => by simp [applyUpdate, hop, hv])
      s h
  | softDelete w t =>
    show statusOf
      (updateFirstWith (fun v => v.video_id == w)
        (fun v => { v with status := "deleted", deleted_at := some t }) s) vid =
      some "deleted"
    exact statusOf_updateFirstWith w vid
      (fun v => { v with status := "deleted", deleted_at := some t })
      (fun v => rfl) (fun v _ => rfl) s h

/-- C3 amended: over any operation sequence in which no update's `$set`
document names the `status` field, a record that is `'deleted'` stays
`'deleted'` — but `update_video` passes arbitrary fields through, so an
update carrying `status` can resurrect a deleted record (see the
counterexample). -/
theorem catalog_status_oneway (s : List Video) (ops : List CatalogOp)
    (vid : String) (hops : ∀ op ∈ ops, statusFree op = true)
    (h : statusOf s vid = some "deleted") :
    statusOf (applyOps s ops) vid = some "deleted" := by
  induction ops generalizing s with
  | nil => simpa [applyOps] using h
  | cons op rest ih =>
    simp only [applyOps, List.foldl_cons]
    exact ih (applyOp s op)
      (fun o ho => hops o (List.mem_cons_of_mem _ ho))
      (statusOf_applyOp_deleted s op vid (hops op (List.mem_cons_self _ _)) h)

/-- C3 witness: `catalog_status_oneway` applied to a one-record catalog
holding a deleted video and a status-free title update. -/
theorem catalog_status_oneway_witness :
    statusOf
      (applyOps
        [{ video_id := "v", title := "t", category := "movie", views := 0,
           downloads := 0, status := "deleted", added_at := 0,
           last_updated := 0, deleted_at := some 1 }]
        [CatalogOp.update "v" ⟨some "t2", none, none⟩ 5])
      "v" = some "deleted" :=
  catalog_status_oneway _ _ "v" (by decide) (by decide)

/-- C3 counterexample: the claim fails for updates that carry the `status`
field: after `add` then `softDelete`, an `update` whose `$set` document is
`{'status': 'active'}` takes the record from `'deleted'` back to
`'active'`. -/
theorem catalog_status_oneway_counterexample :
    statusOf (applyOps [] [CatalogOp.add ⟨"v", "t", "movie"⟩ 0,
        CatalogOp.softDelete "v" 1]) "v" = some "deleted" ∧
    statusOf (applyOps [] [CatalogOp.add ⟨"v", "t", "movie"⟩ 0,
        CatalogOp.softDelete "v" 1,
        CatalogOp.update "v" ⟨none, none, some "active"⟩ 2]) "v" =
      some "active" := by
  constructor <;> decide

lemma map_id_updateFirstWith (p : Video → Bool) (f : Video → Video)
    (hid : ∀ v, (f v).video_id = v.video_id) :
    ∀ s : List Video,
      (updateFirstWith p f s).map Video.video_id = s.map Video.video_id := by
  intro s
  induction s with
  | nil => rfl
  | cons x xs ih =>
    simp only [updateFirstWith]
    by_cases hx : p x = true
    · rw [if_pos hx]; simp [hid]
    · rw [if_neg hx]; simp [ih]

lemma get_video_delete_none (vid : String) (now : Int) :
    ∀ s : List Video, (s.map Video.video_id).Nodup →
      get_video (delete_video s vid now).2 vid = none := by
  intro s
  induction s with
  | nil => intro _; rfl
  | cons x xs ih =>
    intro hnd
    simp only [List.map_cons, List.nodup_cons] at hnd
    obtain ⟨hx_notin, hnd_xs⟩ := hnd
    show (updateFirstWith (fun v => v.video_id == vid)
        (fun v => { v with status := "deleted", deleted_at := some now })
        (x :: xs)).find?
        (fun v => v.video_id == vid && v.status == "active") = none
    simp only [updateFirstWith]
    by_cases hx : (x.video_id == vid) = true
    · rw [if_pos hx]
      have hpred : ¬ ((fun v => v.video_id == vid && v.status == "active")
          ({ x with status := "deleted", deleted_at := some now } : Video)) =
          true := by simp
      have e1 : List.find? (fun v => v.video_id == vid && v.status == "active")
          (({ x with status := "deleted", deleted_at := some now } : Video) ::
            xs) =
          List.find? (fun v => v.video_id == vid && v.status == "active") xs :=
        List.find?_cons_of_neg _ hpred
      rw [e1, List.find?_eq_none]
      intro y hy
      have hyne : y.video_id ≠ vid := by
        intro he
        apply hx_notin
        rw [beq_iff_eq] at hx
        rw [hx, ← he]
        exact List.mem_map_of_mem Video.video_id hy
      simp [hyne]
    · rw [if_neg hx]
      have hpred : ¬ ((fun v => v.video_id == vid && v.status == "active") x) =
          true := by simp_all
      have e2 : List.find? (fun v => v.video_id == vid && v.status == "active")
          (x :: updateFirstWith (fun v => v.video_id == vid)
            (fun v => { v with status := "deleted", deleted_at := some now })
            xs) =
          List.find? (fun v => v.video_id == vid && v.status == "active")
            (updateFirstWith (fun v => v.video_id == vid)
              (fun v => { v with status := "deleted", deleted_at := some now })
              xs) :=
        List.find?_cons_of_neg _ hpred
      rw [e2]
      exact ih hnd_xs

/-- C4: `get_video` only ever returns a record whose status is `'active'`
(and whose id matches); after a soft delete of an id (in a catalog whose
unique index holds, i.e. ids are distinct), `get_video` on that id yields
`none` — the same not-found outcome as for an id with no document at all —
while the soft-deleted document still exists in the collection. -/
theorem get_video_not_found_spec (s : List Video) (vid : String) (now : Int)
    (hnd : (s.map Video.video_id).Nodup) :
    (∀ v, get_video s vid = some v → v.status = "active" ∧ v.video_id = vid) ∧
    get_video (delete_video s vid now).2 vid = none ∧
    ((∃ v ∈ s, v.video_id = vid) →
      ∃ v ∈ (delete_video s vid now).2, v.video_id = vid) ∧
    ((∀ v ∈ s, v.video_id ≠ vid) → get_video s vid = none) := by
  refine ⟨?_, get_video_delete_none vid now s hnd, ?_, ?_⟩
  · intro v hv
    have hp := List.find?_some hv
    simp only [Bool.and_eq_true, beq_iff_eq] at hp
    exact ⟨hp.2, hp.1⟩
  · rintro ⟨v, hv, he⟩
    have hmem : vid ∈ (delete_video s vid now).2.map Video.video_id := by
      show vid ∈ (updateFirstWith (fun v => v.video_id == vid)
        (fun v => { v with status := "deleted", deleted_at := some now })
        s).map Video.video_id
      rw [map_id_updateFirstWith (fun v => v.video_id == vid)
        (fun v => { v with status := "deleted", deleted_at := some now })
        (fun v => rfl)]
      rw [← he]
      exact List.mem_map_of_mem Video.video_id hv
    obtain ⟨v', hv', he'⟩ := List.mem_map.mp hmem
    exact ⟨v', hv', he'⟩
  · intro hall
    rw [get_video, List.find?_eq_none]
    intro v hv
    simp [hall v hv]

/-- C4 witness: `get_video_not_found_spec` at the one-record catalog holding
an active video `"v"`, soft-deleted at time 5. -/
theorem get_video_not_found_spec_witness :
    ((⟨"v", "t", "movie", 0, 0, "active", 0, 0, none⟩ : Video).status =
        "active" ∧
      (⟨"v", "t", "movie", 0, 0, "active", 0, 0, none⟩ : Video).video_id =
        "v") ∧
    get_video (delete_video
      [⟨"v", "t", "movie", 0, 0, "active", 0, 0, none⟩] "v" 5).2 "v" = none ∧
    (∃ v ∈ (delete_video
      [⟨"v", "t", "movie", 0, 0, "active", 0, 0, none⟩] "v" 5).2,
        v.video_id = "v") :=
  ⟨(get_video_not_found_spec
      [⟨"v", "t", "movie", 0, 0, "active", 0, 0, none⟩] "v" 5 (by decide)).1
      ⟨"v", "t", "movie", 0, 0, "active", 0, 0, none⟩ (by decide),
   (get_video_not_found_spec
      [⟨"v", "t", "movie", 0, 0, "active", 0, 0, none⟩] "v" 5 (by decide)).2.1,
   (get_video_not_found_spec
      [⟨"v", "t", "movie", 0, 0, "active", 0, 0, none⟩] "v" 5
      (by decide)).2.2.1 (by decide)⟩

/-! ## UserRegistry: add_user (src/database.py lines 219-249).  The `users`
collection is a list of user documents with a unique index on `user_id`. -/

structure User where
  user_id : Nat
  username : Option String
  first_name : Option String
  joined_at : Int
  last_active : Int
  is_banned : Bool
  total_videos_watched : Nat
  language : String
deriving DecidableEq

/-- The default document `add_user` inserts for a previously unknown user:
not banned, zero consumption counter, default language `'bangla'`. -/
def newUserDoc (uid : Nat) (un fn : Option String) (now : Int) : User :=
  { user_id := uid, username := un, first_name := fn, joined_at := now,
    last_active := now, is_banned := false, total_videos_watched := 0,
    language := "bangla" }

/-- `add_user(user_id, username, first_name)`: if a document with this id
exists, `$set` its `last_active` to now and return `True`; otherwise insert
the default document and return `True` as well (the source returns the same
`True` on both paths). -/
def add_user (users : List User) (uid : Nat) (username first_name : Option String)
    (now : Int) : Bool × List User :=
  match users.find? (fun u => u.user_id == uid) with
  | some _ => (true,
      updateFirstWith (fun u => u.user_id == uid)
        (fun u => { u with last_active := now }) users)
  | none => (true, users ++ [newUserDoc uid username first_name now])

/-- Forget the `last_active` field: two user lists agree under `eraseLA`
exactly when they differ in nothing but last-active timestamps. -/
def eraseLA (u : User) : User := { u with last_active := 0 }

lemma map_eraseLA_updateFirstWith (p : User → Bool) (now : Int) :
    ∀ s : List User,
      (updateFirstWith p (fun u => { u with last_active := now }) s).map
        eraseLA = s.map eraseLA := by
  intro s
  induction s with
  | nil => rfl
  | cons x xs ih =>
    simp only [updateFirstWith]
    by_cases hx : p x = true
    · rw [if_pos hx]; simp [eraseLA]
    · rw [if_neg hx]; simp [ih]

lemma find?_updateFirstWith (p : User → Bool) (f : User → User)
    (hpf : ∀ u, p u = true → p (f u) = true) :
    ∀ (s : List User) (u0 : User), s.find? p = some u0 →
      (updateFirstWith p f s).find? p = some (f u0) := by
  intro s
  induction s with
  | nil => intro u0 h; simp at h
  | cons x xs ih =>
    intro u0 h
    simp only [updateFirstWith]
    by_cases hx : p x = true
    · rw [if_pos hx]
      rw [List.find?_cons_of_pos _ hx] at h
      have e : List.find? p (f x :: xs) = some (f x) :=
        List.find?_cons_of_pos _ (hpf x hx)
      rw [e]
      simp only [Option.some.injEq] at h ⊢
      rw [h]
    · rw [if_neg hx]
      rw [List.find?_cons_of_neg _ hx] at h
      have e : List.find? p (x :: updateFirstWith p f xs) =
          List.find? p (updateFirstWith p f xs) :=
        List.find?_cons_of_neg _ hx
      rw [e]
      exact ih u0 h

lemma countP_user_updateFirstWith (uid : Nat) (f : User → User)
    (hid : ∀ u, (f u).user_id = u.user_id) :
    ∀ s : List User,
      (updateFirstWith (fun u => u.user_id == uid) f s).countP
        (fun u => u.user_id == uid) =
      s.countP (fun u => u.user_id == uid) := by
  intro s
  induction s with
  | nil => rfl
  | cons x xs ih =>
    simp only [updateFirstWith]
    by_cases hx : (x.user_id == uid) = true
    · rw [if_pos hx]
      simp only [List.countP_cons]
      have : ((f x).user_id == uid) = (x.user_id == uid) := by rw [hid]
      rw [this]
    · rw [if_neg hx]
      simp only [List.countP_cons]
      rw [ih]

/-- C5 counterexample: the return values of `add_user` on the created path
and on the already-known path are the same `True` — the caller cannot
distinguish "created" from "existing" by the result. -/
theorem add_user_distinguishable_counterexample :
    (add_user [] 7 none none 0).1 = true ∧
    (add_user (add_user [] 7 none none 0).2 7 none none 1).1 = true ∧
    (add_user [] 7 none none 0).1 =
      (add_user (add_user [] 7 none none 0).2 7 none none 1).1 := by
  refine ⟨rfl, ?_, ?_⟩ <;> decide

/-- C5 amended: on an already-known user `add_user` changes nothing but that
user's last-active (which it sets to now), keeps the record count for the
id, and returns `True`; on an unknown user it appends exactly one default
document (not banned, zero consumption counter, language `'bangla'`) and
returns the same `True` — the two outcomes are not distinguishable by the
return value; calling it twice for a new user leaves exactly one record for
the id, the second call changing nothing but last-active. -/
theorem add_user_upsert_spec (users : List User) (uid : Nat)
    (un fn : Option String) (now : Int) :
    (∀ u0, users.find? (fun u => u.user_id == uid) = some u0 →
      (add_user users uid un fn now).1 = true ∧
      (add_user users uid un fn now).2.map eraseLA = users.map eraseLA ∧
      (add_user users uid un fn now).2.find? (fun u => u.user_id == uid) =
        some { u0 with last_active := now } ∧
      (add_user users uid un fn now).2.countP (fun u => u.user_id == uid) =
        users.countP (fun u => u.user_id == uid)) ∧
    (users.find? (fun u => u.user_id == uid) = none →
      (add_user users uid un fn now).1 = true ∧
      (add_user users uid un fn now).2 =
        users ++ [newUserDoc uid un fn now] ∧
      (add_user users uid un fn now).2.countP (fun u => u.user_id == uid) =
        1) ∧
    (users.find? (fun u => u.user_id == uid) = none → ∀ t2 : Int,
      (add_user (add_user users uid un fn now).2 uid un fn t2).2.countP
        (fun u => u.user_id == uid) = 1 ∧
      (add_user (add_user users uid un fn now).2 uid un fn t2).2.map eraseLA =
        (add_user users uid un fn now).2.map eraseLA) := by
  have hcount0 : users.find? (fun u => u.user_id == uid) = none →
      users.countP (fun u => u.user_id == uid) = 0 := fun h0 =>
    List.countP_eq_zero.mpr (fun a ha => List.find?_eq_none.mp h0 a ha)
  refine ⟨?_, ?_, ?_⟩
  · intro u0 h0
    have hs : add_user users uid un fn now = (true,
        updateFirstWith (fun u => u.user_id == uid)
          (fun u => { u with last_active := now }) users) := by
      simp [add_user, h0]
    rw [hs]
    exact ⟨rfl, map_eraseLA_updateFirstWith _ now users,
      find?_updateFirstWith (fun u => u.user_id == uid)
        (fun u => { u with last_active := now }) (fun u h => h) users u0 h0,
      countP_user_updateFirstWith uid
        (fun u => { u with last_active := now }) (fun u => rfl) users⟩
  · intro h0
    have hs : add_user users uid un fn now = (true,
        users ++ [newUserDoc uid un fn now]) := by
      simp [add_user, h0]
    rw [hs]
    refine ⟨rfl, rfl, ?_⟩
    rw [List.countP_append, hcount0 h0]
    simp [newUserDoc]
  · intro h0 t2
    have hs1 : (add_user users uid un fn now).2 =
        users ++ [newUserDoc uid un fn now] := by
      simp [add_user, h0]
    have hfind : (users ++ [newUserDoc uid un fn now]).find?
        (fun u => u.user_id == uid) = some (newUserDoc uid un fn now) := by
      rw [List.find?_append, h0]
      simp [newUserDoc]
    have hs2 : (add_user (add_user users uid un fn now).2 uid un fn t2).2 =
        updateFirstWith (fun u => u.user_id == uid)
          (fun u => { u with last_active := t2 })
          ((add_user users uid un fn now).2) := by
      rw [hs1]
      simp [add_user, hfind]
    constructor
    · rw [hs2, countP_user_updateFirstWith uid
        (fun u => { u with last_active := t2 }) (fun u => rfl), hs1,
        List.countP_append, hcount0 h0]
      simp [newUserDoc]
    · rw [hs2, map_eraseLA_updateFirstWith _ t2]

/-- C5 witness: `add_user_upsert_spec` at a one-user registry (existing
path, at user id 7), the empty registry (created path) and the
call-twice-for-a-new-user scenario. -/
theorem add_user_upsert_spec_witness :
    (add_user [newUserDoc 7 none none 0] 7 none none 5).1 = true ∧
    (add_user [] 7 none none 0).2 = [] ++ [newUserDoc 7 none none 0] ∧
    (add_user (add_user [] 7 none none 0).2 7 none none 1).2.countP
      (fun u => u.user_id == 7) = 1 :=
  ⟨((add_user_upsert_spec [newUserDoc 7 none none 0] 7 none none 5).1
      (newUserDoc 7 none none 0) (by decide)).1,
   ((add_user_upsert_spec [] 7 none none 0).2.1 (by decide)).2.1,
   ((add_user_upsert_spec [] 7 none none 0).2.2 (by decide) 1).1⟩

/-! ## SettingsStore (src/database.py lines 96-117 and 401-407).  The
`settings` collection holds documents keyed by `_id`; the singleton config
document is the one with `_id = 'config'`. -/

structure FeatureFlags where
  maintenance_mode : Bool
  new_user_registration : Bool
  broadcast_enabled : Bool
deriving DecidableEq

structure SettingsCounters where
  total_broadcasts : Nat
  total_videos_sent : Nat
deriving DecidableEq

structure BotSettings where
  id : String
  welcome_message : String
  help_message : String
  features : FeatureFlags
  stats : SettingsCounters
deriving DecidableEq

/-- The default settings document `_init_settings` inserts: empty override
messages, maintenance off, registration on, broadcast on, zero counters. -/
def default_settings : BotSettings :=
  { id := "config", welcome_message := "", help_message := "",
    features := { maintenance_mode := false, new_user_registration := true,
                  broadcast_enabled := true },
    stats := { total_broadcasts := 0, total_videos_sent := 0 } }

/-- `_init_settings` (run during `connect()`): insert the default document
if no config document exists yet. -/
def init_settings (settings : List BotSettings) : List BotSettings :=
  if (settings.find? (fun s => s.id == "config")).isSome then settings
  else settings ++ [default_settings]

/-- `get_settings()`: `find_one({'_id': 'config'})` — a plain read; it does
not create anything. -/
def get_settings (settings : List BotSettings) : Option BotSettings :=
  settings.find? (fun s => s.id == "config")

/-- C7 counterexample: on a store with no settings document, `get_settings`
returns `None`, not a lazily created default — the default is only created
by `_init_settings` at connect time. -/
theorem get_settings_lazy_counterexample :
    get_settings [] = none ∧ get_settings [] ≠ some default_settings :=
  ⟨rfl, by decide⟩

/-- C7 amended: `get_settings` returns the singleton config document and
never creates one; the documented default (empty override messages,
maintenance off, registration on, broadcast on, zero counters) is created by
`_init_settings` during connection initialisation when absent, so after
initialisation `get_settings` does return it. -/
theorem settings_init_spec :
    (∀ s : List BotSettings, get_settings s = none →
      init_settings s = s ++ [default_settings] ∧
      get_settings (init_settings s) = some default_settings) ∧
    (∀ (s : List BotSettings) (d : BotSettings), get_settings s = some d →
      init_settings s = s) ∧
    get_settings (init_settings []) = some default_settings ∧
    get_settings [] = none := by
  refine ⟨?_, ?_, rfl, rfl⟩
  · intro s h
    unfold get_settings at h
    have h1 : init_settings s = s ++ [default_settings] := by
      simp [init_settings, h]
    refine ⟨h1, ?_⟩
    rw [h1]
    unfold get_settings
    rw [List.find?_append, h]
    simp [default_settings]
  · intro s d h
    unfold get_settings at h
    simp [init_settings, h]

/-- C7 witness: `settings_init_spec` at the empty store (creation by
`_init_settings`) and at a store already holding the config document
(no-op). -/
theorem settings_init_spec_witness :
    init_settings [] = [] ++ [default_settings] ∧
    init_settings [default_settings] = [default_settings] :=
  ⟨(settings_init_spec.1 [] (by decide)).1,
   settings_init_spec.2.1 [default_settings] default_settings (by decide)⟩

/-! ## StatsReporter: get_stats (src/database.py lines 308-352).  The
fallible store queries are modelled by a `fail` flag: `False` is the
successful path, `True` the `except` path.  `today_start` and
`seven_days_ago` are the two cutoff instants the source computes from the
clock. -/

/-- A value in the stats snapshot dict: a count or the top-videos list. -/
inductive StatVal where
  | num (n : Nat)
  | vids (l : List Video)
deriving DecidableEq

/-- Insertion step of a stable sort by `views` descending (the store's
`sort('views', DESCENDING)`). -/
def insertByViews (v : Video) : List Video → List Video
  | [] => [v]
  | x :: xs => if x.views < v.views then v :: x :: xs else x :: insertByViews v xs

def sortByViewsDesc (l : List Video) : List Video := l.foldr insertByViews []

/-- `get_stats()`: on the successful path, an eight-field snapshot of counts
plus the top-5 most-viewed active videos added within the trailing window;
on the `except` path, the literal fallback dict of seven zero counts (no
`top_videos` key). -/
def get_stats (fail : Bool) (users : List User) (videos : List Video)
    (todayStart sevenDaysAgo : Int) : List (String × StatVal) :=
  if fail then
    [("total_users", StatVal.num 0), ("total_videos", StatVal.num 0),
     ("adult_videos", StatVal.num 0), ("movie_videos", StatVal.num 0),
     ("series_videos", StatVal.num 0), ("new_users_today", StatVal.num 0),
     ("new_videos_today", StatVal.num 0)]
  else
    [("total_users",
      StatVal.num (users.countP (fun u => u.is_banned == false))),
     ("total_videos",
      StatVal.num (videos.countP (fun v => v.status == "active"))),
     ("adult_videos",
      StatVal.num (videos.countP
        (fun v => v.category == "adult" && v.status == "active"))),
     ("movie_videos",
      StatVal.num (videos.countP
        (fun v => v.category == "movie" && v.status == "active"))),
     ("series_videos",
      StatVal.num (videos.countP
        (fun v => v.category == "series" && v.status == "active"))),
     ("new_users_today",
      StatVal.num (users.countP (fun u => decide (todayStart ≤ u.joined_at)))),
     ("new_videos_today",
      StatVal.num (videos.countP
        (fun v => decide (todayStart ≤ v.added_at) && v.status == "active"))),
     ("top_videos",
      StatVal.vids ((sortByViewsDesc (videos.filter
        (fun v => decide (sevenDaysAgo ≤ v.added_at) &&
          v.status == "active"))).take 5))]

/-- C8 counterexample: the failure snapshot does not carry the same fields
as a successful one — the successful dict has a `top_videos` key and the
fallback dict does not. -/
theorem get_stats_fields_counterexample :
    ("top_videos" ∈ (get_stats false [] [] 0 0).map Prod.fst) ∧
    ("top_videos" ∉ (get_stats true [] [] 0 0).map Prod.fst) ∧
    (get_stats true [] [] 0 0).map Prod.fst ≠
      (get_stats false [] [] 0 0).map Prod.fst := by
  exact ⟨by decide, by decide, by decide⟩

/-- C8 amended: when an underlying query fails, `get_stats` returns — rather
than propagating the error — the fixed fallback snapshot whose seven count
fields are all zero; this fallback omits the `top_videos` field that a
successful snapshot carries, so it does not have the same fields as a
successful snapshot. -/
theorem get_stats_failure_spec (users : List User) (videos : List Video)
    (todayStart sevenDaysAgo : Int) :
    get_stats true users videos todayStart sevenDaysAgo =
      [("total_users", StatVal.num 0), ("total_videos", StatVal.num 0),
       ("adult_videos", StatVal.num 0), ("movie_videos", StatVal.num 0),
       ("series_videos", StatVal.num 0), ("new_users_today", StatVal.num 0),
       ("new_videos_today", StatVal.num 0)] ∧
    (get_stats false users videos todayStart sevenDaysAgo).map Prod.fst =
      ["total_users", "total_videos", "adult_videos", "movie_videos",
       "series_videos", "new_users_today", "new_videos_today",
       "top_videos"] ∧
    "top_videos" ∉
      (get_stats true users videos todayStart sevenDaysAgo).map Prod.fst := by
  have h1 : get_stats true users videos todayStart sevenDaysAgo =
      [("total_users", StatVal.num 0), ("total_videos", StatVal.num 0),
       ("adult_videos", StatVal.num 0), ("movie_videos", StatVal.num 0),
       ("series_videos", StatVal.num 0), ("new_users_today", StatVal.num 0),
       ("new_videos_today", StatVal.num 0)] := rfl
  refine ⟨h1, by simp [get_stats], ?_⟩
  rw [h1]
  decide

/-- C8 witness: `get_stats_failure_spec` instantiated at the empty stores. -/
theorem get_stats_failure_spec_witness :
    get_stats true [] [] 0 0 =
      [("total_users", StatVal.num 0), ("total_videos", StatVal.num 0),
       ("adult_videos", StatVal.num 0), ("movie_videos", StatVal.num 0),
       ("series_videos", StatVal.num 0), ("new_users_today", StatVal.num 0),
       ("new_videos_today", StatVal.num 0)] :=
  (get_stats_failure_spec [] [] 0 0).1

end Boka
